import Mathlib

/-!
Shallow embedding of the co-browse session relay server (`src/server.js`).

Conventions used throughout:
* WebSocket connections are identified by natural numbers (`ConnId`); their
  `readyState` is tracked in an explicit map `ConnId → Nat` using the `ws`
  library constants (`OPEN = 1`, `CLOSING = 2`); `ws.close()` moves an open
  connection to `CLOSING`.
* The JS `Map` objects (`sessions`) are association lists preserving
  insertion order (JS `Map` iterates in insertion order); the per-IP
  `rateLimits` map is a function `String → Option RateLimitRecord`.
* Timestamps (`Date.now()`) are integers (milliseconds).
* Fields that may be `undefined`/`null` in JS are `Option`s.
* Outbound JSON messages are a closed inductive `OutMsg`; the three distinct
  join-failure payloads (`Session not found or expired`,
  `Session already has an agent connected`, rate-limit text) are separate
  constructors since their message strings are fixed.
* `console.log` output and the `logAudit` calls sprinkled through the
  handlers only append to the audit log (modelled separately by `logAudit`)
  and are omitted from the handler state.
-/

namespace Server

/-- Constant `SESSION_TIMEOUT_MS = 10 * 60 * 1000` (server.js line 16). -/
def SESSION_TIMEOUT_MS : Int := 10 * 60 * 1000

/-- Constant `MAX_JOIN_ATTEMPTS = 5` (server.js line 17). -/
def MAX_JOIN_ATTEMPTS : Nat := 5

/-- Constant `RATE_LIMIT_WINDOW_MS = 60 * 1000` (server.js line 18). -/
def RATE_LIMIT_WINDOW_MS : Int := 60 * 1000

/-- Connections are identified by numbers. -/
abbrev ConnId := Nat

/-- Value of the `WebSocket.OPEN` readyState constant of the `ws` library. -/
def WS_OPEN : Nat := 1

/-- Value of the `WebSocket.CLOSING` readyState constant: the state right after `ws.close()`. -/
def WS_CLOSING : Nat := 2

/-- Computes `Math.ceil(a / b)` on integers (JS divides exactly, then takes the
ceiling); for `b > 0` this is `-((-a) / b)` with floor division. -/
def jsMathCeilDiv (a b : Int) : Int := -((-a) / b)

/-- Per-IP rate-limit record: `{ attempts, windowStart }` (server.js line 26). -/
structure RateLimitRecord where
  attempts : Nat
  windowStart : Int
deriving DecidableEq, Repr

/-- The `rateLimits` map (server.js line 27). -/
abbrev RateMap := String → Option RateLimitRecord

/-- Result object of `checkRateLimit`: `{ allowed, remaining }` or
`{ allowed, retryAfter }`. -/
structure RateResult where
  allowed : Bool
  remaining : Option Nat
  retryAfter : Option Int
deriving DecidableEq, Repr

/-- Function `checkRateLimit(ip)` (server.js lines 66-89), with the current time and
the `rateLimits` map passed explicitly; returns the result object and the
updated map. -/
def checkRateLimit (rl : RateMap) (ip : String) (now : Int) : RateResult × RateMap :=
  match rl ip with
  | none =>
      (⟨true, some (MAX_JOIN_ATTEMPTS - 1), none⟩,
       Function.update rl ip (some ⟨1, now⟩))
  | some record =>
      -- Reset window if expired: `now - record.windowStart > RATE_LIMIT_WINDOW_MS`
      if RATE_LIMIT_WINDOW_MS < now - record.windowStart then
        (⟨true, some (MAX_JOIN_ATTEMPTS - 1), none⟩,
         Function.update rl ip (some ⟨1, now⟩))
      -- Check if over limit: `record.attempts >= MAX_JOIN_ATTEMPTS`
      else if MAX_JOIN_ATTEMPTS ≤ record.attempts then
        (⟨false, none,
          some (jsMathCeilDiv (record.windowStart + RATE_LIMIT_WINDOW_MS - now) 1000)⟩,
         rl)
      else
        -- `record.attempts++`, remaining = MAX - (new) attempts
        (⟨true, some (MAX_JOIN_ATTEMPTS - record.attempts - 1), none⟩,
         Function.update rl ip (some ⟨record.attempts + 1, record.windowStart⟩))

/-- A sequence of `checkRateLimit` calls for one ip at the given timestamps,
threading the map; returns all results and the final map. -/
def checkCalls (rl : RateMap) (ip : String) : List Int → List RateResult × RateMap
  | [] => ([], rl)
  | t :: ts =>
      let r := checkRateLimit rl ip t
      let rest := checkCalls r.2 ip ts
      (r.1 :: rest.1, rest.2)

/-- Function `validateAgentKey(providedKey)` (server.js lines 52-63) with the
configured `AGENT_SECRET_KEY` passed explicitly.  `!providedKey` is true in
JS for `undefined` (absent field) and for the empty string.
`crypto.timingSafeEqual` throws when the two UTF-8 buffers have different
byte lengths (caught, giving `false`) and otherwise returns byte equality,
which for UTF-8 encodings coincides with string equality. -/
def validateAgentKey (providedKey : Option String) (secretKey : String) : Bool :=
  match providedKey with
  | none => false
  | some k =>
      if k = "" ∨ secretKey = "" then false
      else if k.utf8ByteSize = secretKey.utf8ByteSize then k == secretKey
      else false

/-- The code alphabet `ABCDEFGHJKLMNPQRSTUVWXYZ23456789` (server.js line 38). -/
def CODE_CHARS : String := "ABCDEFGHJKLMNPQRSTUVWXYZ23456789"

/-- The 6-character code built from one `crypto.randomBytes(6)` draw:
`code += chars.charAt(randomBytes[i] % chars.length)` for `i = 0..5`. -/
def codeFromDraw (draw : List Nat) : String :=
  String.mk ((List.range 6).map fun i =>
    CODE_CHARS.toList.getD ((draw.getD i 0) % CODE_CHARS.length) 'A')

/-- One session record (server.js lines 232-240).  `client` is always set at
creation and never cleared, so it is not optional (hence the
`!session.client` test at line 279 can never fire and is not modelled);
`agentIP`, `agentJoinedAt` and `passwordLength` are `undefined` until first
assigned. -/
structure Session where
  client : ConnId
  agent : Option ConnId
  page : Option String
  cursor : Option (Int × Int)
  createdAt : Int
  expiresAt : Int
  clientIP : String
  agentIP : Option String
  agentJoinedAt : Option Int
  passwordLength : Option Nat
deriving DecidableEq, Repr

/-- Lookup `sessions.get(code)` on the association-list model of the `sessions` map. -/
def mapGet (k : String) : List (String × Session) → Option Session
  | [] => none
  | p :: rest => if p.1 = k then some p.2 else mapGet k rest

/-- Update `sessions.set(code, v)`: replaces the value in place when the key is
present (JS `Map` keeps the key's insertion position), appends otherwise. -/
def mapSet : List (String × Session) → String → Session → List (String × Session)
  | [], k, v => [(k, v)]
  | p :: rest, k, v => if p.1 = k then (k, v) :: rest else p :: mapSet rest k v

/-- Deletion `sessions.delete(code)`. -/
def mapDelete (ss : List (String × Session)) (k : String) : List (String × Session) :=
  ss.filter fun p => decide (p.1 ≠ k)

/-- Function `generateSessionCode()` (server.js lines 37-49).  The recursion draws a
fresh `crypto.randomBytes(6)` on each collision; the stream of draws is
passed explicitly, and exhausting it (which the real unbounded recursion
cannot observe) gives `none`. -/
def generateSessionCode (ss : List (String × Session)) : List (List Nat) → Option String
  | [] => none
  | d :: rest =>
      let code := codeFromDraw d
      -- `if (sessions.has(code)) return generateSessionCode();`
      if (mapGet code ss).isSome then generateSessionCode ss rest
      else some code

/-- One audit entry (server.js lines 93-97); `details` is kept opaque. -/
structure AuditEntry where
  timestamp : Int
  event : String
  details : String
deriving DecidableEq, Repr

/-- Function `logAudit(event, details)` (server.js lines 92-105): push the entry, then
`if (auditLog.length > 1000) auditLog.shift()`. -/
def logAudit (log : List AuditEntry) (entry : AuditEntry) : List AuditEntry :=
  let l := log ++ [entry]
  if 1000 < l.length then l.drop 1 else l

/-- The connection's role string (`client` / `agent`). -/
inductive Role
  | client
  | agent
deriving DecidableEq, Repr

/-- Per-connection context: the `currentSession` and `role` variables of the
connection handler (server.js lines 219-220), both `null` until a
create/join succeeds. -/
structure ConnCtx where
  currentSession : Option String
  role : Option Role
deriving DecidableEq, Repr

/-- Outbound JSON messages sent by the engine (`ws.send(JSON.stringify(...))`). -/
inductive OutMsg
  | sessionCreated (code : String)
  | errorRateLimited (retryAfter : Int)
  | errorInvalidCredentials
  | errorSessionNotFound
  | errorAgentAlreadyConnected
  | sessionJoined (code : String)
  | fullPage (html : String) (passwordLength : Nat)
  | agentJoined
  | cursorMove (x y : Int)
  | voiceMessage (text : String)
  | aiResponse (text : String)
  | sessionEnded (reason : Option String)
  | clientDisconnected
  | agentDisconnected
deriving DecidableEq, Repr

/-- The fresh record inserted by the `create-session` case
(server.js lines 232-240). -/
def newSessionRecord (ws : ConnId) (clientIP : String) (now : Int) : Session :=
  { client := ws, agent := none, page := none, cursor := none,
    createdAt := now, expiresAt := now + SESSION_TIMEOUT_MS,
    clientIP := clientIP, agentIP := none, agentJoinedAt := none,
    passwordLength := none }

/-- Result of the `create-session` case: the updated `sessions` map, the
sender's new `(currentSession, role)` binding, and the messages sent. -/
structure CreateResult where
  sessions : List (String × Session)
  ctx : ConnCtx
  sends : List (ConnId × OutMsg)
deriving Repr

/-- The `create-session` case (server.js lines 228-245).  `code` is the
value returned by `generateSessionCode()`; note the case reads neither
`currentSession` nor `role` — the sender's previous binding (`ctx`) is
simply overwritten. -/
def handleCreate (sessions : List (String × Session)) (ws : ConnId)
    (clientIP : String) (ctx : ConnCtx) (code : String) (now : Int) : CreateResult :=
  { sessions := mapSet sessions code (newSessionRecord ws clientIP now),
    ctx := { currentSession := some code, role := some Role.client },
    sends := [(ws, OutMsg.sessionCreated code)] }

/-- Test `session.agent && session.agent.readyState === WebSocket.OPEN`
(server.js line 293). -/
def agentSlotOpen (cs : ConnId → Nat) (s : Session) : Bool :=
  match s.agent with
  | some a => cs a == WS_OPEN
  | none => false

/-- Result of the `join-session` case. -/
structure JoinResult where
  sessions : List (String × Session)
  rateLimits : RateMap
  ctx : ConnCtx
  sends : List (ConnId × OutMsg)

/-- The `join-session` case (server.js lines 247-328): rate limit, then
agent key, then session lookup, then occupied-agent-slot check, then the
successful join (mutating the record and notifying both sides).  Like
`create-session`, it never reads the sender's previous binding `ctx`;
`ctx` is carried through unchanged on the failure paths. -/
def handleJoin (sessions : List (String × Session)) (rl : RateMap)
    (cs : ConnId → Nat) (ws : ConnId) (clientIP : String) (ctx : ConnCtx)
    (msgCode : String) (agentKey : Option String) (secret : String)
    (now : Int) : JoinResult :=
  let rc := checkRateLimit rl clientIP now
  if !rc.1.allowed then
    ⟨sessions, rc.2, ctx, [(ws, OutMsg.errorRateLimited (rc.1.retryAfter.getD 0))]⟩
  else if !validateAgentKey agentKey secret then
    ⟨sessions, rc.2, ctx, [(ws, OutMsg.errorInvalidCredentials)]⟩
  else
    match mapGet msgCode sessions with
    | none => ⟨sessions, rc.2, ctx, [(ws, OutMsg.errorSessionNotFound)]⟩
    | some session =>
        if agentSlotOpen cs session then
          ⟨sessions, rc.2, ctx, [(ws, OutMsg.errorAgentAlreadyConnected)]⟩
        else
          ⟨mapSet sessions msgCode
             { session with agent := some ws, agentIP := some clientIP,
                            agentJoinedAt := some now },
           rc.2,
           ⟨some msgCode, some Role.agent⟩,
           [(ws, OutMsg.sessionJoined msgCode)]
             ++ (match session.page with
                 | some p => [(ws, OutMsg.fullPage p (session.passwordLength.getD 0))]
                 | none => [])
             ++ [(session.client, OutMsg.agentJoined)]⟩

/-- The `full-page` case (server.js lines 330-342): guarded by
`currentSession && role === client`; stores the snapshot and password
length on the record and forwards to the agent when it is open. -/
def handleFullPage (sessions : List (String × Session)) (ctx : ConnCtx)
    (cs : ConnId → Nat) (html : String) (passwordLength : Option Nat) :
    List (String × Session) × List (ConnId × OutMsg) :=
  match ctx.currentSession, ctx.role with
  | some code, some Role.client =>
      match mapGet code sessions with
      | some sess =>
          let pl := passwordLength.getD 0
          (mapSet sessions code { sess with page := some html, passwordLength := some pl },
           match sess.agent with
           | some a => if cs a = WS_OPEN then [(a, OutMsg.fullPage html pl)] else []
           | none => [])
      | none => (sessions, [])
  | _, _ => (sessions, [])

/-- Handler for the `close` event of a connection (server.js lines 408-427): a presenter
(`role === client`) close notifies the open agent and deletes the session;
an agent close clears the `agent` slot and notifies the open presenter. -/
def handleClose (sessions : List (String × Session)) (cs : ConnId → Nat)
    (ctx : ConnCtx) : List (String × Session) × List (ConnId × OutMsg) :=
  match ctx.currentSession with
  | none => (sessions, [])
  | some code =>
      match mapGet code sessions with
      | none => (sessions, [])
      | some session =>
          match ctx.role with
          | some Role.client =>
              (mapDelete sessions code,
               match session.agent with
               | some a =>
                   if cs a = WS_OPEN then [(a, OutMsg.clientDisconnected)] else []
               | none => [])
          | some Role.agent =>
              (mapSet sessions code { session with agent := none },
               if cs session.client = WS_OPEN
               then [(session.client, OutMsg.agentDisconnected)] else [])
          | none => (sessions, [])

/-- The notification both peers get from the expiry sweep. -/
def expiredMsg : OutMsg := OutMsg.sessionEnded (some "expired")

/-- Combined `send` + `close()` against one peer inside `cleanupExpiredSessions`:
fires only when the readyState is `OPEN`, and `close()` moves the
connection to `CLOSING`. -/
def notifyAndClose (cs : ConnId → Nat) (c : ConnId) :
    (ConnId → Nat) × List (ConnId × OutMsg) :=
  if cs c = WS_OPEN then (Function.update cs c WS_CLOSING, [(c, expiredMsg)])
  else (cs, [])

/-- The body of `cleanupExpiredSessions` for one expired session
(server.js lines 125-132): client first, then agent, threading the
connection states. -/
def expireSession (cs : ConnId → Nat) (s : Session) :
    (ConnId → Nat) × List (ConnId × OutMsg) :=
  let step1 := notifyAndClose cs s.client
  match s.agent with
  | none => step1
  | some a =>
      let step2 := notifyAndClose step1.1 a
      (step2.1, step1.2 ++ step2.2)

/-- Result of one sweep: remaining sessions, connection states, sent messages. -/
structure CleanupResult where
  sessions : List (String × Session)
  connState : ConnId → Nat
  sends : List (ConnId × OutMsg)

/-- Function `cleanupExpiredSessions()` (server.js lines 119-136) with `Date.now()`
passed explicitly: walks the map in insertion order and, for every session
with `now > session.expiresAt`, notifies and closes the open peers and
deletes the record. -/
def cleanupExpiredSessions (now : Int) :
    List (String × Session) → (ConnId → Nat) → CleanupResult
  | [], cs => ⟨[], cs, []⟩
  | (code, s) :: rest, cs =>
      if s.expiresAt < now then
        let e := expireSession cs s
        let r := cleanupExpiredSessions now rest e.1
        ⟨r.sessions, r.connState, e.2 ++ r.sends⟩
      else
        let r := cleanupExpiredSessions now rest cs
        ⟨(code, s) :: r.sessions, r.connState, r.sends⟩

/-! Concrete sample states used by the closed witness/counterexample
theorems below. -/

/-- A session with no agent joined yet. -/
def sampleSession : Session :=
  ⟨1, none, none, none, 0, 600000, "203.0.113.7", none, none, none⟩

/-- A session whose agent slot is occupied by connection `2`. -/
def sampleAgentSession : Session :=
  ⟨1, some 2, none, none, 0, 600000, "203.0.113.7", some "198.51.100.9", some 5, none⟩

/-- An already-expired session (`expiresAt = 0`). -/
def expiredSession : Session :=
  ⟨1, some 2, none, none, -600000, 0, "203.0.113.7", some "198.51.100.9", some 5, none⟩

/-- A sample audit entry. -/
def sampleEntry : AuditEntry := ⟨0, "SESSION_CREATED", "code=AAAAAA"⟩

/-- A binding left by a successful create of session `"AAAAAA"`. -/
def boundCtx : ConnCtx := ⟨some "AAAAAA", some Role.client⟩

/-- Connection-state map with every connection open. -/
def allOpen : ConnId → Nat := fun _ => WS_OPEN

/-- An empty rate-limit map. -/
def freshRL : RateMap := fun _ => none

/-- Times of six calls, the last one exactly at the window boundary
`windowStart + RATE_LIMIT_WINDOW_MS` (which the code still treats as inside
the window: it resets only when `now - windowStart > RATE_LIMIT_WINDOW_MS`). -/
def boundaryTimes : List Int := [0, 0, 0, 0, 0, 60000]

/-- The default `AGENT_SECRET_KEY` (server.js line 13); never empty, since
`process.env.AGENT_SECRET_KEY || default` falls back on this default when the
environment value is missing or the empty string. -/
def demoSecret : String := "demo-secret-change-in-production"

/-- Two sample `crypto.randomBytes(6)` draws. -/
def sampleDraws : List (List Nat) := [[0, 0, 0, 0, 0, 0], [1, 1, 1, 1, 1, 1]]

/-- The connections referenced by one session record: the presenter and, when
present, the agent. -/
def peersOf (s : Session) : List ConnId := s.client :: s.agent.toList

/-- All connections referenced by the sessions map, in order. -/
def peersList : List (String × Session) → List ConnId
  | [] => []
  | p :: rest => peersOf p.2 ++ peersList rest

/-! ### Helper lemmas about the map model -/

theorem mapGet_eq_none_iff (k : String) (ss : List (String × Session)) :
    mapGet k ss = none ↔ ∀ p ∈ ss, p.1 ≠ k := by
  induction ss with
  | nil => simp [mapGet]
  | cons p rest ih =>
      by_cases hp : p.1 = k
      · simp [mapGet, hp]
      · simp [mapGet, hp, ih]

theorem mapGet_mapSet_self (ss : List (String × Session)) (k : String) (v : Session) :
    mapGet k (mapSet ss k v) = some v := by
  induction ss with
  | nil => simp [mapSet, mapGet]
  | cons p rest ih =>
      by_cases hp : p.1 = k
      · simp [mapSet, hp, mapGet]
      · simp [mapSet, hp, mapGet, ih]

theorem mapGet_mapDelete_self (ss : List (String × Session)) (k : String) :
    mapGet k (mapDelete ss k) = none := by
  induction ss with
  | nil => simp [mapDelete, mapGet]
  | cons p rest ih =>
      by_cases hp : p.1 = k
      · simpa [mapDelete, hp] using ih
      · simpa [mapDelete, mapGet, hp] using ih

theorem codeFromDraw_length (d : List Nat) : (codeFromDraw d).length = 6 := rfl

/-! ### C4 — credential validation -/

/-- C4: `validateAgentKey` returns `true` exactly when the provided secret
equals the configured (non-empty) shared secret; it returns `false` for an
absent key, for the empty string, for any differing string (in particular
one of a different length). -/
theorem validateAgentKey_iff (secret : String) (hs : secret ≠ "") :
    validateAgentKey none secret = false
    ∧ validateAgentKey (some "") secret = false
    ∧ ∀ k : String,
        (validateAgentKey (some k) secret = true ↔ k = secret)
        ∧ (k ≠ secret → validateAgentKey (some k) secret = false)
        ∧ (k.length ≠ secret.length → validateAgentKey (some k) secret = false) := by
  refine ⟨rfl, by simp [validateAgentKey], ?_⟩
  intro k
  have hiff : validateAgentKey (some k) secret = true ↔ k = secret := by
    by_cases hk : k = ""
    · subst hk
      simp only [validateAgentKey, true_or, if_true]
      simp [Ne.symm hs]
    · by_cases hlen : k.utf8ByteSize = secret.utf8ByteSize
      · simp [validateAgentKey, hk, hs, hlen]
      · simp only [validateAgentKey, hk, hs, or_self, if_false, hlen, if_true]
        constructor
        · intro h; cases h
        · intro h; exact absurd (by rw [h]) hlen
  refine ⟨hiff, ?_, ?_⟩
  · intro hne
    cases hv : validateAgentKey (some k) secret with
    | false => rfl
    | true => exact absurd (hiff.mp hv) hne
  · intro hlen
    have hne : k ≠ secret := fun h => hlen (by rw [h])
    cases hv : validateAgentKey (some k) secret with
    | false => rfl
    | true => exact absurd (hiff.mp hv) hne

/-- Witness for C4 at the default configured secret. -/
theorem validateAgentKey_iff_witness :
    demoSecret ≠ ""
    ∧ (validateAgentKey none demoSecret = false
       ∧ validateAgentKey (some "") demoSecret = false
       ∧ ∀ k : String,
           (validateAgentKey (some k) demoSecret = true ↔ k = demoSecret)
           ∧ (k ≠ demoSecret → validateAgentKey (some k) demoSecret = false)
           ∧ (k.length ≠ demoSecret.length →
               validateAgentKey (some k) demoSecret = false)) :=
  ⟨by decide, validateAgentKey_iff demoSecret (by decide)⟩

/-! ### C8 — session-code allocation -/

/-- C8: whenever `generateSessionCode` returns a code, that code has exactly
6 characters and collides with no live session: it is not a key of the
`sessions` map (the retry-on-collision branch guarantees this for every
state of the live set). -/
theorem generateSessionCode_fresh (ss : List (String × Session))
    (draws : List (List Nat)) (code : String)
    (h : generateSessionCode ss draws = some code) :
    code.length = 6 ∧ mapGet code ss = none ∧ ∀ p ∈ ss, p.1 ≠ code := by
  induction draws with
  | nil => simp [generateSessionCode] at h
  | cons d rest ih =>
      rw [generateSessionCode] at h
      by_cases hc : (mapGet (codeFromDraw d) ss).isSome
      · rw [if_pos hc] at h
        exact ih h
      · rw [if_neg hc] at h
        cases h
        have hnone : mapGet (codeFromDraw d) ss = none :=
          Option.not_isSome_iff_eq_none.mp hc
        exact ⟨codeFromDraw_length d, hnone, (mapGet_eq_none_iff _ _).mp hnone⟩

/-- Witness for C8: with `"AAAAAA"` live, the first draw collides and the
retry returns the fresh code `"BBBBBB"`. -/
theorem generateSessionCode_fresh_witness :
    generateSessionCode [("AAAAAA", sampleSession)] sampleDraws = some "BBBBBB"
    ∧ ("BBBBBB".length = 6
       ∧ mapGet "BBBBBB" [("AAAAAA", sampleSession)] = none
       ∧ ∀ p ∈ [("AAAAAA", sampleSession)], p.1 ≠ "BBBBBB") :=
  ⟨by decide,
   generateSessionCode_fresh [("AAAAAA", sampleSession)] sampleDraws "BBBBBB"
     (by decide)⟩

/-! ### C9 — bounded audit log -/

/-- C9: `logAudit` preserves the 1000-entry bound: it appends the entry and,
exactly when the bound would be exceeded, evicts the single oldest entry
(the front of the list). -/
theorem logAudit_bounded (log : List AuditEntry) (entry : AuditEntry)
    (h : log.length ≤ 1000) :
    (logAudit log entry).length ≤ 1000
    ∧ (log.length < 1000 → logAudit log entry = log ++ [entry])
    ∧ (log.length = 1000 → logAudit log entry = log.drop 1 ++ [entry]) := by
  by_cases hl : log.length = 1000
  · have hgt : 1000 < (log ++ [entry]).length := by simp [hl]
    have hres : logAudit log entry = (log ++ [entry]).drop 1 := by
      simp only [logAudit]
      rw [if_pos hgt]
    have hdrop : (log ++ [entry]).drop 1 = log.drop 1 ++ [entry] := by
      rcases log with _ | ⟨a, tl⟩
      · simp at hl
      · simp
    refine ⟨?_, fun hlt => absurd hl (by omega), fun _ => by rw [hres, hdrop]⟩
    rw [hres, hdrop]
    simp
    omega
  · have hlt : log.length < 1000 := by omega
    have hres : logAudit log entry = log ++ [entry] := by
      simp only [logAudit]
      rw [if_neg (by simp; omega)]
    refine ⟨?_, fun _ => hres, fun heq => absurd heq hl⟩
    rw [hres]
    simp
    omega

/-- Witness for C9 at a full (1000-entry) log. -/
theorem logAudit_bounded_witness :
    (List.replicate 1000 sampleEntry).length ≤ 1000
    ∧ ((logAudit (List.replicate 1000 sampleEntry) sampleEntry).length ≤ 1000
       ∧ ((List.replicate 1000 sampleEntry).length < 1000 →
           logAudit (List.replicate 1000 sampleEntry) sampleEntry =
             List.replicate 1000 sampleEntry ++ [sampleEntry])
       ∧ ((List.replicate 1000 sampleEntry).length = 1000 →
           logAudit (List.replicate 1000 sampleEntry) sampleEntry =
             (List.replicate 1000 sampleEntry).drop 1 ++ [sampleEntry])) :=
  ⟨by simp only [List.length_replicate]; omega,
   logAudit_bounded _ _ (by simp only [List.length_replicate]; omega)⟩

/-! ### Rate limiter: step lemmas -/

theorem checkRateLimit_fresh (rl : RateMap) (ip : String) (now : Int)
    (h : rl ip = none) :
    checkRateLimit rl ip now =
      (⟨true, some (MAX_JOIN_ATTEMPTS - 1), none⟩,
       Function.update rl ip (some ⟨1, now⟩)) := by
  simp [checkRateLimit, h]

theorem checkRateLimit_inc (rl : RateMap) (ip : String) (now : Int)
    (k : Nat) (w : Int) (h : rl ip = some ⟨k, w⟩)
    (hw : now - w ≤ RATE_LIMIT_WINDOW_MS) (hk : k < MAX_JOIN_ATTEMPTS) :
    checkRateLimit rl ip now =
      (⟨true, some (MAX_JOIN_ATTEMPTS - k - 1), none⟩,
       Function.update rl ip (some ⟨k + 1, w⟩)) := by
  simp only [checkRateLimit, h]
  rw [if_neg (not_lt.mpr hw), if_neg (not_le.mpr hk)]

theorem checkRateLimit_reject (rl : RateMap) (ip : String) (now : Int)
    (k : Nat) (w : Int) (h : rl ip = some ⟨k, w⟩)
    (hw : now - w ≤ RATE_LIMIT_WINDOW_MS) (hk : MAX_JOIN_ATTEMPTS ≤ k) :
    checkRateLimit rl ip now =
      (⟨false, none,
        some (jsMathCeilDiv (w + RATE_LIMIT_WINDOW_MS - now) 1000)⟩, rl) := by
  simp only [checkRateLimit, h]
  rw [if_neg (not_lt.mpr hw), if_pos hk]

theorem map_decide_all_false (k n : Nat) (h : MAX_JOIN_ATTEMPTS ≤ k) :
    (List.range n).map (fun i => decide (k + i < MAX_JOIN_ATTEMPTS)) =
      List.replicate n false := by
  induction n with
  | zero => rfl
  | succ n ih =>
      have hd : decide (k + n < MAX_JOIN_ATTEMPTS) = false := by
        simp only [MAX_JOIN_ATTEMPTS] at h ⊢
        simp only [decide_eq_false_iff_not]
        omega
      rw [List.range_succ, List.map_append, ih, List.map_cons, List.map_nil, hd,
        ← List.replicate_succ']

/-- Runs of `checkRateLimit` inside one window: starting from a record with
`attempts = k` and window start `w`, and all call times within the window of
`w`, the i-th further call is allowed exactly when `k + i < MAX_JOIN_ATTEMPTS`. -/
theorem checkCalls_attempts (ip : String) (w : Int) (ts : List Int) :
    ∀ (rl : RateMap) (k : Nat), rl ip = some ⟨k, w⟩ →
      (∀ t ∈ ts, t - w ≤ RATE_LIMIT_WINDOW_MS) →
      (checkCalls rl ip ts).1.map (·.allowed) =
        (List.range ts.length).map (fun i => decide (k + i < MAX_JOIN_ATTEMPTS)) := by
  induction ts with
  | nil => intro rl k _ _; rfl
  | cons t ts ih =>
      intro rl k hrl hw
      have ht : t - w ≤ RATE_LIMIT_WINDOW_MS := hw t (List.mem_cons_self _ _)
      have hw' : ∀ t' ∈ ts, t' - w ≤ RATE_LIMIT_WINDOW_MS :=
        fun t' h' => hw t' (List.mem_cons_of_mem _ h')
      by_cases hk : k < MAX_JOIN_ATTEMPTS
      · simp only [checkCalls]
        rw [checkRateLimit_inc rl ip t k w hrl ht hk]
        have hupd : (Function.update rl ip (some ⟨k + 1, w⟩) : RateMap) ip =
            some ⟨k + 1, w⟩ := Function.update_same ip _ rl
        rw [List.map_cons, ih _ (k + 1) hupd hw',
          List.length_cons, List.range_succ_eq_map, List.map_cons, List.map_map]
        have hhd : (true : Bool) = decide (k + 0 < MAX_JOIN_ATTEMPTS) := by
          simp [hk]
        rw [show ((⟨true, some (MAX_JOIN_ATTEMPTS - k - 1), none⟩ : RateResult).allowed)
              = true from rfl]
        rw [hhd]
        refine congrArg₂ _ rfl ?_
        refine List.map_congr_left fun i _ => ?_
        simp only [Function.comp]
        rw [decide_eq_decide]
        omega
      · push_neg at hk
        simp only [checkCalls]
        rw [checkRateLimit_reject rl ip t k w hrl ht hk]
        rw [List.map_cons, ih rl k hrl hw',
          List.length_cons, map_decide_all_false k ts.length hk,
          map_decide_all_false k (ts.length + 1) hk]
        rw [show ((⟨false, none,
              some (jsMathCeilDiv (w + RATE_LIMIT_WINDOW_MS - t) 1000)⟩ :
                RateResult).allowed) = false from rfl]
        rw [List.replicate_succ]

/-! ### C3 — rate limit window exhaustion (corrected at the boundary) -/

/-- Counterexample to C3 as stated: for a fresh origin, five calls at time 0
are allowed and the sixth call at time 60000 — still within the same window —
is rejected, but its `retryAfter` is `0`, not strictly positive. -/
theorem rate_limit_boundary_cex :
    (checkCalls freshRL "203.0.113.7" boundaryTimes).1.map (·.allowed)
        = [true, true, true, true, true, false]
    ∧ ((checkCalls freshRL "203.0.113.7" boundaryTimes).1.getD 5
          (⟨true, none, none⟩ : RateResult)).retryAfter = some 0
    ∧ ¬ (0 : Int) <
        (((checkCalls freshRL "203.0.113.7" boundaryTimes).1.getD 5
          (⟨true, none, none⟩ : RateResult)).retryAfter.getD 0) := by
  refine ⟨by decide, by decide, by decide⟩

/-- C3 (amended): for a fresh origin key, exactly `MAX_JOIN_ATTEMPTS` (5)
consecutive `check` calls within one window return `allowed = true`, and the
6th call within the same window returns `allowed = false` together with
`retryAfter = ceil((windowStart + RATE_LIMIT_WINDOW_MS - now) / 1000)`,
which is nonnegative, and strictly positive whenever the 6th call happens
strictly before the end of the window (at exactly the window boundary it is
`0`). -/
theorem rate_limit_window_exhaustion (rl : RateMap) (ip : String)
    (t₁ t₂ t₃ t₄ t₅ t₆ : Int) (hfresh : rl ip = none)
    (h2 : t₂ - t₁ ≤ RATE_LIMIT_WINDOW_MS) (h3 : t₃ - t₁ ≤ RATE_LIMIT_WINDOW_MS)
    (h4 : t₄ - t₁ ≤ RATE_LIMIT_WINDOW_MS) (h5 : t₅ - t₁ ≤ RATE_LIMIT_WINDOW_MS)
    (h6 : t₆ - t₁ ≤ RATE_LIMIT_WINDOW_MS) :
    (checkCalls rl ip [t₁, t₂, t₃, t₄, t₅, t₆]).1.map (·.allowed)
        = [true, true, true, true, true, false]
    ∧ ((checkCalls rl ip [t₁, t₂, t₃, t₄, t₅, t₆]).1.getD 5
          (⟨true, none, none⟩ : RateResult)).retryAfter
        = some (jsMathCeilDiv (t₁ + RATE_LIMIT_WINDOW_MS - t₆) 1000)
    ∧ 0 ≤ jsMathCeilDiv (t₁ + RATE_LIMIT_WINDOW_MS - t₆) 1000
    ∧ (t₆ < t₁ + RATE_LIMIT_WINDOW_MS →
        0 < jsMathCeilDiv (t₁ + RATE_LIMIT_WINDOW_MS - t₆) 1000) := by
  have e1 := checkRateLimit_fresh rl ip t₁ hfresh
  have u1 : (Function.update rl ip (some ⟨1, t₁⟩) : RateMap) ip = some ⟨1, t₁⟩ :=
    Function.update_same ip _ rl
  have e2 := checkRateLimit_inc _ ip t₂ 1 t₁ u1 h2 (by decide)
  have u2 : (Function.update (Function.update rl ip (some ⟨1, t₁⟩)) ip
      (some ⟨2, t₁⟩) : RateMap) ip = some ⟨2, t₁⟩ := Function.update_same ip _ _
  have e3 := checkRateLimit_inc _ ip t₃ 2 t₁ u2 h3 (by decide)
  have u3 : (Function.update (Function.update (Function.update rl ip
      (some ⟨1, t₁⟩)) ip (some ⟨2, t₁⟩)) ip (some ⟨3, t₁⟩) : RateMap) ip =
      some ⟨3, t₁⟩ := Function.update_same ip _ _
  have e4 := checkRateLimit_inc _ ip t₄ 3 t₁ u3 h4 (by decide)
  have u4 : (Function.update (Function.update (Function.update (Function.update
      rl ip (some ⟨1, t₁⟩)) ip (some ⟨2, t₁⟩)) ip (some ⟨3, t₁⟩)) ip
      (some ⟨4, t₁⟩) : RateMap) ip = some ⟨4, t₁⟩ := Function.update_same ip _ _
  have e5 := checkRateLimit_inc _ ip t₅ 4 t₁ u4 h5 (by decide)
  have u5 : (Function.update (Function.update (Function.update (Function.update
      (Function.update rl ip (some ⟨1, t₁⟩)) ip (some ⟨2, t₁⟩)) ip
      (some ⟨3, t₁⟩)) ip (some ⟨4, t₁⟩)) ip (some ⟨5, t₁⟩) : RateMap) ip =
      some ⟨5, t₁⟩ := Function.update_same ip _ _
  have e6 := checkRateLimit_reject _ ip t₆ 5 t₁ u5 h6 (by decide)
  refine ⟨?_, ?_, ?_, ?_⟩
  · simp only [checkCalls]
    rw [e1]
    rw [e2]
    rw [e3]
    rw [e4]
    rw [e5]
    rw [e6]
    simp
  · simp only [checkCalls]
    rw [e1]
    rw [e2]
    rw [e3]
    rw [e4]
    rw [e5]
    rw [e6]
    simp
  · simp only [jsMathCeilDiv, RATE_LIMIT_WINDOW_MS] at *
    omega
  · intro hlt
    simp only [jsMathCeilDiv, RATE_LIMIT_WINDOW_MS] at *
    omega

/-- Witness for C3 (amended), all six calls at time 0. -/
theorem rate_limit_window_exhaustion_witness :
    freshRL "203.0.113.7" = none
    ∧ ((0 : Int) - 0 ≤ RATE_LIMIT_WINDOW_MS)
    ∧ ((checkCalls freshRL "203.0.113.7" [0, 0, 0, 0, 0, 0]).1.map (·.allowed)
          = [true, true, true, true, true, false]
       ∧ ((checkCalls freshRL "203.0.113.7" [0, 0, 0, 0, 0, 0]).1.getD 5
             (⟨true, none, none⟩ : RateResult)).retryAfter
           = some (jsMathCeilDiv (0 + RATE_LIMIT_WINDOW_MS - 0) 1000)
       ∧ 0 ≤ jsMathCeilDiv (0 + RATE_LIMIT_WINDOW_MS - 0) 1000
       ∧ ((0 : Int) < 0 + RATE_LIMIT_WINDOW_MS →
           0 < jsMathCeilDiv (0 + RATE_LIMIT_WINDOW_MS - 0) 1000)) :=
  ⟨rfl, by decide,
   rate_limit_window_exhaustion freshRL "203.0.113.7" 0 0 0 0 0 0 rfl
     (by decide) (by decide) (by decide) (by decide) (by decide)⟩

/-! ### C10 — every join-session consumes one rate-limit attempt first -/

/-- C10: (i) the `rateLimits` map after any `join-session` message is
exactly the map produced by the initial `checkRateLimit` call — independent
of whether credentials validate, the session exists, or the join succeeds —
so every processed join (successful or not) consumes one attempt; (ii) when
the rate check rejects, nothing but the error reply happens; (iii) from a
fresh origin, the i-th join attempt within one window gets past the rate
check exactly when `i < MAX_JOIN_ATTEMPTS`, so after `k` allowed attempts
only `MAX_JOIN_ATTEMPTS - k` more are processed in that window. -/
theorem join_consumes_rate_attempt
    (sessions : List (String × Session)) (rl : RateMap) (cs : ConnId → Nat)
    (ws : ConnId) (ip : String) (ctx : ConnCtx) (code : String)
    (key : Option String) (secret : String) (now : Int)
    (rl₀ : RateMap) (ip₀ : String) (t₀ : Int) (ts : List Int)
    (hfresh : rl₀ ip₀ = none)
    (hts : ∀ t ∈ ts, t - t₀ ≤ RATE_LIMIT_WINDOW_MS) :
    (handleJoin sessions rl cs ws ip ctx code key secret now).rateLimits
        = (checkRateLimit rl ip now).2
    ∧ ((checkRateLimit rl ip now).1.allowed = false →
        handleJoin sessions rl cs ws ip ctx code key secret now =
          ⟨sessions, (checkRateLimit rl ip now).2, ctx,
           [(ws, OutMsg.errorRateLimited
               ((checkRateLimit rl ip now).1.retryAfter.getD 0))]⟩)
    ∧ (checkCalls rl₀ ip₀ (t₀ :: ts)).1.map (·.allowed) =
        (List.range (ts.length + 1)).map (fun i => decide (i < MAX_JOIN_ATTEMPTS)) := by
  refine ⟨?_, ?_, ?_⟩
  · simp only [handleJoin]
    split
    · rfl
    · split
      · rfl
      · split
        · rfl
        · split
          · rfl
          · rfl
  · intro hb
    simp [handleJoin, hb]
  · simp only [checkCalls]
    rw [checkRateLimit_fresh rl₀ ip₀ t₀ hfresh]
    have hupd : (Function.update rl₀ ip₀ (some ⟨1, t₀⟩) : RateMap) ip₀ =
        some ⟨1, t₀⟩ := Function.update_same ip₀ _ rl₀
    rw [List.map_cons, checkCalls_attempts ip₀ t₀ ts _ 1 hupd hts,
      List.range_succ_eq_map, List.map_cons, List.map_map]
    rw [show ((⟨true, some (MAX_JOIN_ATTEMPTS - 1), none⟩ : RateResult).allowed)
          = true from rfl]
    have hhd : (true : Bool) = decide (0 < MAX_JOIN_ATTEMPTS) := by decide
    rw [hhd]
    refine congrArg₂ _ rfl ?_
    refine List.map_congr_left fun i _ => ?_
    simp only [Function.comp]
    rw [decide_eq_decide]
    omega

/-- Witness for C10: an attempted (successful) join from a fresh origin. -/
theorem join_consumes_rate_attempt_witness :
    freshRL "203.0.113.7" = none
    ∧ (∀ t ∈ ([0, 0, 0] : List Int), t - 0 ≤ RATE_LIMIT_WINDOW_MS)
    ∧ ((handleJoin [("AAAAAA", sampleSession)] freshRL allOpen 2 "198.51.100.9"
          ⟨none, none⟩ "AAAAAA" (some demoSecret) demoSecret 7).rateLimits
            = (checkRateLimit freshRL "198.51.100.9" 7).2
       ∧ ((checkRateLimit freshRL "198.51.100.9" 7).1.allowed = false →
           handleJoin [("AAAAAA", sampleSession)] freshRL allOpen 2 "198.51.100.9"
             ⟨none, none⟩ "AAAAAA" (some demoSecret) demoSecret 7 =
             ⟨[("AAAAAA", sampleSession)], (checkRateLimit freshRL "198.51.100.9" 7).2,
              ⟨none, none⟩,
              [(2, OutMsg.errorRateLimited
                  ((checkRateLimit freshRL "198.51.100.9" 7).1.retryAfter.getD 0))]⟩)
       ∧ (checkCalls freshRL "203.0.113.7" ((0 : Int) :: [0, 0, 0])).1.map (·.allowed) =
           (List.range (([0, 0, 0] : List Int).length + 1)).map
             (fun i => decide (i < MAX_JOIN_ATTEMPTS))) :=
  ⟨rfl, by decide,
   join_consumes_rate_attempt [("AAAAAA", sampleSession)] freshRL allOpen 2
     "198.51.100.9" ⟨none, none⟩ "AAAAAA" (some demoSecret) demoSecret 7
     freshRL "203.0.113.7" 0 [0, 0, 0] rfl (by decide)⟩

/-! ### C1 — create/join have no pre-session precondition (corrected) -/

/-- Counterexample to C1 as stated: connection `2` is already bound to
session `"AAAAAA"` (as its presenter), yet its `create-session` message is
not dropped — a new record is inserted, the binding is overwritten, and a
`session-created` reply is sent. -/
theorem create_from_bound_connection_cex :
    ¬ ((handleCreate [("AAAAAA", sampleSession)] 2 "203.0.113.7" boundCtx
          "BBBBBB" 50).sessions = [("AAAAAA", sampleSession)]
       ∧ (handleCreate [("AAAAAA", sampleSession)] 2 "203.0.113.7" boundCtx
            "BBBBBB" 50).ctx = boundCtx
       ∧ (handleCreate [("AAAAAA", sampleSession)] 2 "203.0.113.7" boundCtx
            "BBBBBB" 50).sends = []) := by decide

/-- C1 (amended): the `create-session` and `join-session` cases enforce
no "none (pre-session)" precondition at all: their behaviour is independent
of the sender's existing `(code, role)` binding.  In particular a bound
connection's `create-session` still inserts a fresh record, replies
`session-created` and rebinds the sender as presenter of the new session
(overwriting the old binding rather than leaving it unchanged), and its
`join-session` is processed through the normal rate-limit / credential /
registry pipeline exactly as for an unbound sender. -/
theorem create_join_ignore_binding
    (ss : List (String × Session)) (rl : RateMap) (cs : ConnId → Nat)
    (ws : ConnId) (ip : String) (ctx : ConnCtx) (code : String)
    (key : Option String) (secret : String) (now : Int) :
    handleCreate ss ws ip ctx code now = handleCreate ss ws ip ⟨none, none⟩ code now
    ∧ (handleCreate ss ws ip ctx code now).sends = [(ws, OutMsg.sessionCreated code)]
    ∧ (handleCreate ss ws ip ctx code now).ctx = ⟨some code, some Role.client⟩
    ∧ (handleCreate ss ws ip ctx code now).sessions
        = mapSet ss code (newSessionRecord ws ip now)
    ∧ (handleJoin ss rl cs ws ip ctx code key secret now).sessions
        = (handleJoin ss rl cs ws ip ⟨none, none⟩ code key secret now).sessions
    ∧ (handleJoin ss rl cs ws ip ctx code key secret now).rateLimits
        = (handleJoin ss rl cs ws ip ⟨none, none⟩ code key secret now).rateLimits
    ∧ (handleJoin ss rl cs ws ip ctx code key secret now).sends
        = (handleJoin ss rl cs ws ip ⟨none, none⟩ code key secret now).sends := by
  refine ⟨rfl, rfl, rfl, rfl, ?_, ?_, ?_⟩ <;>
    · simp only [handleJoin]
      split
      · rfl
      · split
        · rfl
        · split
          · rfl
          · split
            · rfl
            · rfl

/-! ### C2 — join failure and success semantics -/

/-- C2: past the rate check and credential check, `join-session` fails
with the `SessionNotFound` error when no live session has the code, fails
with the `AgentAlreadyConnected` error when the agent slot holds an open
connection (all state unchanged in both cases), and succeeds when the agent
slot is absent — storing the joining connection and its address on the
record and binding the sender as agent. -/
theorem join_error_success_semantics
    (sessions : List (String × Session)) (rl : RateMap) (cs : ConnId → Nat)
    (ws : ConnId) (ip : String) (ctx : ConnCtx) (code : String)
    (key : Option String) (secret : String) (now : Int)
    (hAllowed : (checkRateLimit rl ip now).1.allowed = true)
    (hKey : validateAgentKey key secret = true) :
    (mapGet code sessions = none →
      handleJoin sessions rl cs ws ip ctx code key secret now =
        ⟨sessions, (checkRateLimit rl ip now).2, ctx,
         [(ws, OutMsg.errorSessionNotFound)]⟩)
    ∧ (∀ s a, mapGet code sessions = some s → s.agent = some a → cs a = WS_OPEN →
        handleJoin sessions rl cs ws ip ctx code key secret now =
          ⟨sessions, (checkRateLimit rl ip now).2, ctx,
           [(ws, OutMsg.errorAgentAlreadyConnected)]⟩)
    ∧ (∀ s, mapGet code sessions = some s → s.agent = none →
        mapGet code (handleJoin sessions rl cs ws ip ctx code key secret now).sessions
            = some { s with agent := some ws, agentIP := some ip,
                            agentJoinedAt := some now }
        ∧ (handleJoin sessions rl cs ws ip ctx code key secret now).ctx
            = ⟨some code, some Role.agent⟩
        ∧ (handleJoin sessions rl cs ws ip ctx code key secret now).sends.head?
            = some (ws, OutMsg.sessionJoined code)) := by
  refine ⟨?_, ?_, ?_⟩
  · intro hnone
    simp [handleJoin, hAllowed, hKey, hnone]
  · intro s a hs ha hopen
    have hslot : agentSlotOpen cs s = true := by
      simp [agentSlotOpen, ha, hopen]
    simp [handleJoin, hAllowed, hKey, hs, hslot]
  · intro s hs ha
    have hslot : agentSlotOpen cs s = false := by
      simp [agentSlotOpen, ha]
    refine ⟨?_, ?_, ?_⟩
    · simp only [handleJoin, hAllowed, hKey, hs, hslot]
      simp [mapGet_mapSet_self]
    · simp [handleJoin, hAllowed, hKey, hs, hslot]
    · simp only [handleJoin, hAllowed, hKey, hs, hslot]
      simp

/-- Witness for C2: valid key and fresh origin against a session whose agent
slot is absent (its prior agent disconnected); the join succeeds. -/
theorem join_error_success_semantics_witness :
    (checkRateLimit freshRL "198.51.100.9" 7).1.allowed = true
    ∧ validateAgentKey (some demoSecret) demoSecret = true
    ∧ ((mapGet "AAAAAA" [("AAAAAA", sampleSession)] = none →
          handleJoin [("AAAAAA", sampleSession)] freshRL allOpen 2 "198.51.100.9"
            ⟨none, none⟩ "AAAAAA" (some demoSecret) demoSecret 7 =
            ⟨[("AAAAAA", sampleSession)], (checkRateLimit freshRL "198.51.100.9" 7).2,
             ⟨none, none⟩, [(2, OutMsg.errorSessionNotFound)]⟩)
       ∧ (∀ s a, mapGet "AAAAAA" [("AAAAAA", sampleSession)] = some s →
            s.agent = some a → allOpen a = WS_OPEN →
            handleJoin [("AAAAAA", sampleSession)] freshRL allOpen 2 "198.51.100.9"
              ⟨none, none⟩ "AAAAAA" (some demoSecret) demoSecret 7 =
              ⟨[("AAAAAA", sampleSession)], (checkRateLimit freshRL "198.51.100.9" 7).2,
               ⟨none, none⟩, [(2, OutMsg.errorAgentAlreadyConnected)]⟩)
       ∧ (∀ s, mapGet "AAAAAA" [("AAAAAA", sampleSession)] = some s →
            s.agent = none →
            mapGet "AAAAAA" (handleJoin [("AAAAAA", sampleSession)] freshRL allOpen 2
                "198.51.100.9" ⟨none, none⟩ "AAAAAA" (some demoSecret)
                demoSecret 7).sessions
                = some { s with agent := some 2, agentIP := some "198.51.100.9",
                                agentJoinedAt := some 7 }
            ∧ (handleJoin [("AAAAAA", sampleSession)] freshRL allOpen 2 "198.51.100.9"
                 ⟨none, none⟩ "AAAAAA" (some demoSecret) demoSecret 7).ctx
                = ⟨some "AAAAAA", some Role.agent⟩
            ∧ (handleJoin [("AAAAAA", sampleSession)] freshRL allOpen 2 "198.51.100.9"
                 ⟨none, none⟩ "AAAAAA" (some demoSecret) demoSecret 7).sends.head?
                = some (2, OutMsg.sessionJoined "AAAAAA"))) :=
  ⟨by decide, by decide,
   join_error_success_semantics [("AAAAAA", sampleSession)] freshRL allOpen 2
     "198.51.100.9" ⟨none, none⟩ "AAAAAA" (some demoSecret) demoSecret 7
     (by decide) (by decide)⟩

/-! ### C5 — full-page from an agent-bound connection is dropped -/

/-- C5: a `full-page` message from a connection bound with role agent is
dropped entirely: the sessions map (snapshot, password-field length and all
other fields of every record) is unchanged and no message is sent to anyone
— in particular the presenter receives nothing. -/
theorem full_page_from_agent_dropped
    (sessions : List (String × Session)) (cs : ConnId → Nat)
    (cur : Option String) (html : String) (passwordLength : Option Nat) :
    handleFullPage sessions ⟨cur, some Role.agent⟩ cs html passwordLength
      = (sessions, []) := by
  cases cur <;> rfl

/-! ### C6 — presenter disconnect destroys the session -/

/-- C6: when the presenter's connection closes, the agent is notified with
`client-disconnected` exactly when its connection is open, the session
record is deleted unconditionally (the code is no longer a key of the live
map), and any subsequent join with that code — past the rate check and with
valid credentials — fails with the `SessionNotFound` error. -/
theorem presenter_close_deletes_session
    (sessions : List (String × Session)) (cs : ConnId → Nat)
    (code : String) (s : Session) (hs : mapGet code sessions = some s) :
    mapGet code (handleClose sessions cs ⟨some code, some Role.client⟩).1 = none
    ∧ (∀ a, s.agent = some a → cs a = WS_OPEN →
        (handleClose sessions cs ⟨some code, some Role.client⟩).2
          = [(a, OutMsg.clientDisconnected)])
    ∧ (s.agent = none →
        (handleClose sessions cs ⟨some code, some Role.client⟩).2 = [])
    ∧ ∀ (rl : RateMap) (ws₂ : ConnId) (ip₂ : String) (ctx₂ : ConnCtx)
        (key : Option String) (secret : String) (now₂ : Int),
        (checkRateLimit rl ip₂ now₂).1.allowed = true →
        validateAgentKey key secret = true →
        handleJoin (handleClose sessions cs ⟨some code, some Role.client⟩).1
            rl cs ws₂ ip₂ ctx₂ code key secret now₂
          = ⟨(handleClose sessions cs ⟨some code, some Role.client⟩).1,
             (checkRateLimit rl ip₂ now₂).2, ctx₂,
             [(ws₂, OutMsg.errorSessionNotFound)]⟩ := by
  have h1 : (handleClose sessions cs ⟨some code, some Role.client⟩).1
      = mapDelete sessions code := by
    simp [handleClose, hs]
  refine ⟨?_, ?_, ?_, ?_⟩
  · rw [h1]
    exact mapGet_mapDelete_self sessions code
  · intro a ha hopen
    simp [handleClose, hs, ha, hopen]
  · intro ha
    simp [handleClose, hs, ha]
  · intro rl ws₂ ip₂ ctx₂ key secret now₂ hAllowed hKey
    have hnone : mapGet code (handleClose sessions cs ⟨some code, some Role.client⟩).1
        = none := by rw [h1]; exact mapGet_mapDelete_self sessions code
    simp [handleJoin, hAllowed, hKey, hnone]

/-- Witness for C6: presenter `1` of session `"AAAAAA"` (agent `2` open)
disconnects. -/
theorem presenter_close_deletes_session_witness :
    mapGet "AAAAAA" [("AAAAAA", sampleAgentSession)] = some sampleAgentSession
    ∧ (mapGet "AAAAAA" (handleClose [("AAAAAA", sampleAgentSession)] allOpen
         ⟨some "AAAAAA", some Role.client⟩).1 = none
       ∧ (∀ a, sampleAgentSession.agent = some a → allOpen a = WS_OPEN →
           (handleClose [("AAAAAA", sampleAgentSession)] allOpen
              ⟨some "AAAAAA", some Role.client⟩).2
             = [(a, OutMsg.clientDisconnected)])
       ∧ (sampleAgentSession.agent = none →
           (handleClose [("AAAAAA", sampleAgentSession)] allOpen
              ⟨some "AAAAAA", some Role.client⟩).2 = [])
       ∧ ∀ (rl : RateMap) (ws₂ : ConnId) (ip₂ : String) (ctx₂ : ConnCtx)
           (key : Option String) (secret : String) (now₂ : Int),
           (checkRateLimit rl ip₂ now₂).1.allowed = true →
           validateAgentKey key secret = true →
           handleJoin (handleClose [("AAAAAA", sampleAgentSession)] allOpen
               ⟨some "AAAAAA", some Role.client⟩).1
               rl allOpen ws₂ ip₂ ctx₂ "AAAAAA" key secret now₂
             = ⟨(handleClose [("AAAAAA", sampleAgentSession)] allOpen
                  ⟨some "AAAAAA", some Role.client⟩).1,
                (checkRateLimit rl ip₂ now₂).2, ctx₂,
                [(ws₂, OutMsg.errorSessionNotFound)]⟩) :=
  ⟨by decide,
   presenter_close_deletes_session [("AAAAAA", sampleAgentSession)] allOpen
     "AAAAAA" sampleAgentSession (by decide)⟩

/-! ### C7 — expiry sweep: supporting lemmas -/

theorem notifyAndClose_state_ne (cs : ConnId → Nat) (c c' : ConnId) (h : c' ≠ c) :
    (notifyAndClose cs c).1 c' = cs c' := by
  unfold notifyAndClose
  split
  · exact Function.update_noteq h _ _
  · rfl

theorem notifyAndClose_state_self (cs : ConnId → Nat) (c : ConnId)
    (h : cs c = WS_OPEN) : (notifyAndClose cs c).1 c = WS_CLOSING := by
  unfold notifyAndClose
  rw [if_pos h]
  exact Function.update_same c _ cs

theorem notifyAndClose_sends (cs : ConnId → Nat) (c : ConnId) :
    (notifyAndClose cs c).2 =
      if cs c = WS_OPEN then [(c, expiredMsg)] else [] := by
  unfold notifyAndClose
  split <;> rfl

theorem peersOf_not (c : ConnId) (s : Session) (h : c ∉ peersOf s) :
    c ≠ s.client ∧ ∀ a, s.agent = some a → c ≠ a := by
  simp only [peersOf, List.mem_cons, not_or] at h
  refine ⟨h.1, fun a ha hc => ?_⟩
  exact h.2 (by simp [ha, hc])

theorem expireSession_state_notMem (cs : ConnId → Nat) (s : Session)
    (c : ConnId) (h : c ∉ peersOf s) : (expireSession cs s).1 c = cs c := by
  obtain ⟨hc, hca⟩ := peersOf_not c s h
  cases ha : s.agent with
  | none =>
      simp only [expireSession, ha]
      exact notifyAndClose_state_ne cs s.client c hc
  | some a =>
      simp only [expireSession, ha]
      rw [notifyAndClose_state_ne _ a c (hca a ha)]
      exact notifyAndClose_state_ne cs s.client c hc

theorem expireSession_sends_mem (cs : ConnId → Nat) (s : Session)
    (x : ConnId × OutMsg) (h : x ∈ (expireSession cs s).2) : x.1 ∈ peersOf s := by
  cases ha : s.agent with
  | none =>
      simp only [expireSession, ha] at h
      rw [notifyAndClose_sends] at h
      by_cases ho : cs s.client = WS_OPEN
      · rw [if_pos ho] at h
        simp only [List.mem_singleton] at h
        simp [peersOf, h]
      · rw [if_neg ho] at h
        cases h
  | some a =>
      simp only [expireSession, ha] at h
      rcases List.mem_append.mp h with h1 | h2
      · rw [notifyAndClose_sends] at h1
        by_cases ho : cs s.client = WS_OPEN
        · rw [if_pos ho] at h1
          simp only [List.mem_singleton] at h1
          simp [peersOf, h1]
        · rw [if_neg ho] at h1
          cases h1
      · rw [notifyAndClose_sends] at h2
        by_cases ho : (notifyAndClose cs s.client).1 a = WS_OPEN
        · rw [if_pos ho] at h2
          simp only [List.mem_singleton] at h2
          simp [peersOf, h2, ha]
        · rw [if_neg ho] at h2
          cases h2

theorem expireSession_count_notMem (cs : ConnId → Nat) (s : Session)
    (c : ConnId) (m : OutMsg) (h : c ∉ peersOf s) :
    (expireSession cs s).2.count (c, m) = 0 :=
  List.count_eq_zero.mpr fun hmem => h (expireSession_sends_mem cs s (c, m) hmem)

theorem expireSession_client (cs : ConnId → Nat) (s : Session)
    (hopen : cs s.client = WS_OPEN)
    (hagent : ∀ a, s.agent = some a → a ≠ s.client) :
    (expireSession cs s).2.count (s.client, expiredMsg) = 1
    ∧ (expireSession cs s).1 s.client = WS_CLOSING := by
  have h1sends : (notifyAndClose cs s.client).2 = [(s.client, expiredMsg)] := by
    rw [notifyAndClose_sends, if_pos hopen]
  have h1state : (notifyAndClose cs s.client).1 s.client = WS_CLOSING :=
    notifyAndClose_state_self cs s.client hopen
  cases ha : s.agent with
  | none =>
      simp only [expireSession, ha]
      rw [h1sends]
      exact ⟨by simp, h1state⟩
  | some a =>
      have hne := hagent a ha
      simp only [expireSession, ha]
      constructor
      · rw [List.count_append, h1sends]
        have hz : ((notifyAndClose (notifyAndClose cs s.client).1 a).2).count
            (s.client, expiredMsg) = 0 := by
          rw [notifyAndClose_sends]
          split
          · simp [Ne.symm hne]
          · rfl
        rw [hz]
        simp
      · rw [notifyAndClose_state_ne _ a s.client (Ne.symm hne)]
        exact h1state

theorem expireSession_agent (cs : ConnId → Nat) (s : Session) (a : ConnId)
    (ha : s.agent = some a) (hopen : cs a = WS_OPEN) (hne : a ≠ s.client) :
    (expireSession cs s).2.count (a, expiredMsg) = 1
    ∧ (expireSession cs s).1 a = WS_CLOSING := by
  have hstep1a : (notifyAndClose cs s.client).1 a = cs a :=
    notifyAndClose_state_ne cs s.client a hne
  have hopen1 : (notifyAndClose cs s.client).1 a = WS_OPEN := by
    rw [hstep1a]; exact hopen
  have h2sends : (notifyAndClose (notifyAndClose cs s.client).1 a).2
      = [(a, expiredMsg)] := by
    rw [notifyAndClose_sends, if_pos hopen1]
  simp only [expireSession, ha]
  constructor
  · rw [List.count_append, h2sends]
    have hz : ((notifyAndClose cs s.client).2).count (a, expiredMsg) = 0 := by
      rw [notifyAndClose_sends]
      split
      · simp [hne]
      · rfl
    rw [hz]
    simp
  · exact notifyAndClose_state_self _ a hopen1

theorem client_mem_peersList (ss : List (String × Session)) (code : String)
    (s : Session) (h : (code, s) ∈ ss) : s.client ∈ peersList ss := by
  induction ss with
  | nil => cases h
  | cons p rest ih =>
      obtain ⟨pc, ps⟩ := p
      rw [peersList]
      rcases List.mem_cons.mp h with heq | hm
      · injection heq with h1 h2
        subst h1
        subst h2
        exact List.mem_append_left _ (by simp [peersOf])
      · exact List.mem_append_right _ (ih hm)

theorem agent_mem_peersList (ss : List (String × Session)) (code : String)
    (s : Session) (a : ConnId) (h : (code, s) ∈ ss) (ha : s.agent = some a) :
    a ∈ peersList ss := by
  induction ss with
  | nil => cases h
  | cons p rest ih =>
      obtain ⟨pc, ps⟩ := p
      rw [peersList]
      rcases List.mem_cons.mp h with heq | hm
      · injection heq with h1 h2
        subst h1
        subst h2
        exact List.mem_append_left _ (by simp [peersOf, ha])
      · exact List.mem_append_right _ (ih hm)

theorem cleanup_sessions_filter (now : Int) (ss : List (String × Session)) :
    ∀ cs, (cleanupExpiredSessions now ss cs).sessions =
      ss.filter fun p => !decide (p.2.expiresAt < now) := by
  induction ss with
  | nil => intro cs; rfl
  | cons p rest ih =>
      intro cs
      obtain ⟨pc, ps⟩ := p
      by_cases he : ps.expiresAt < now
      · simp only [cleanupExpiredSessions, if_pos he, ih, List.filter_cons]
        simp [he]
      · simp only [cleanupExpiredSessions, if_neg he, ih, List.filter_cons]
        simp [he]

theorem cleanup_sends_mem (now : Int) (ss : List (String × Session)) :
    ∀ cs x, x ∈ (cleanupExpiredSessions now ss cs).sends → x.1 ∈ peersList ss := by
  induction ss with
  | nil =>
      intro cs x h
      cases h
  | cons p rest ih =>
      intro cs x h
      obtain ⟨pc, ps⟩ := p
      rw [peersList]
      by_cases he : ps.expiresAt < now
      · simp only [cleanupExpiredSessions, if_pos he] at h
        rcases List.mem_append.mp h with h1 | h2
        · exact List.mem_append_left _ (expireSession_sends_mem cs ps x h1)
        · exact List.mem_append_right _ (ih _ x h2)
      · simp only [cleanupExpiredSessions, if_neg he] at h
        exact List.mem_append_right _ (ih _ x h)

theorem cleanup_state_notMem (now : Int) (ss : List (String × Session)) :
    ∀ cs c, c ∉ peersList ss →
      (cleanupExpiredSessions now ss cs).connState c = cs c := by
  induction ss with
  | nil => intro cs c _; rfl
  | cons p rest ih =>
      intro cs c h
      obtain ⟨pc, ps⟩ := p
      rw [peersList] at h
      have h1 : c ∉ peersOf ps := fun hm => h (List.mem_append_left _ hm)
      have h2 : c ∉ peersList rest := fun hm => h (List.mem_append_right _ hm)
      by_cases he : ps.expiresAt < now
      · simp only [cleanupExpiredSessions, if_pos he]
        rw [ih _ c h2]
        exact expireSession_state_notMem cs ps c h1
      · simp only [cleanupExpiredSessions, if_neg he]
        exact ih _ c h2

/-- Exactly-once notification by the sweep, by induction along the map
(assuming the distinct sessions reference pairwise distinct connections). -/
theorem cleanup_notify (now : Int) (ss : List (String × Session)) :
    ∀ (cs : ConnId → Nat), (peersList ss).Nodup →
    ∀ (code : String) (s : Session), (code, s) ∈ ss → s.expiresAt < now →
      (cs s.client = WS_OPEN →
        (cleanupExpiredSessions now ss cs).sends.count (s.client, expiredMsg) = 1
        ∧ (cleanupExpiredSessions now ss cs).connState s.client = WS_CLOSING)
      ∧ (∀ a, s.agent = some a → cs a = WS_OPEN →
        (cleanupExpiredSessions now ss cs).sends.count (a, expiredMsg) = 1
        ∧ (cleanupExpiredSessions now ss cs).connState a = WS_CLOSING) := by
  induction ss with
  | nil =>
      intro cs _ code s h
      cases h
  | cons p rest ih =>
      intro cs hnd code s hmem hexp
      obtain ⟨pc, ps⟩ := p
      rw [peersList] at hnd
      obtain ⟨hnd1, hnd2, hdisj⟩ := List.nodup_append.mp hnd
      rcases List.mem_cons.mp hmem with heq | hmemr
      · injection heq with h1 h2
        subst h1
        subst h2
        simp only [cleanupExpiredSessions, if_pos hexp]
        have hagent_ne : ∀ a, s.agent = some a → a ≠ s.client := by
          intro a ha
          have h' := hnd1
          rw [peersOf, ha] at h'
          simp only [Option.toList_some, List.nodup_cons, List.mem_singleton] at h'
          exact fun hc => h'.1 hc.symm
        have hclient_head : s.client ∈ peersOf s := by simp [peersOf]
        have hclient_rest : s.client ∉ peersList rest := fun hm => hdisj hclient_head hm
        constructor
        · intro hopen
          obtain ⟨hc1, hs1⟩ := expireSession_client cs s hopen hagent_ne
          have hc0 : ((cleanupExpiredSessions now rest
              (expireSession cs s).1).sends).count (s.client, expiredMsg) = 0 :=
            List.count_eq_zero.mpr fun hm =>
              hclient_rest (cleanup_sends_mem now rest _ _ hm)
          have hs0 : (cleanupExpiredSessions now rest
              (expireSession cs s).1).connState s.client
              = (expireSession cs s).1 s.client :=
            cleanup_state_notMem now rest _ s.client hclient_rest
          exact ⟨by rw [List.count_append, hc1, hc0], by rw [hs0, hs1]⟩
        · intro a ha hopen
          have hne := hagent_ne a ha
          have ha_head : a ∈ peersOf s := by simp [peersOf, ha]
          have ha_rest : a ∉ peersList rest := fun hm => hdisj ha_head hm
          obtain ⟨hc1, hs1⟩ := expireSession_agent cs s a ha hopen hne
          have hc0 : ((cleanupExpiredSessions now rest
              (expireSession cs s).1).sends).count (a, expiredMsg) = 0 :=
            List.count_eq_zero.mpr fun hm =>
              ha_rest (cleanup_sends_mem now rest _ _ hm)
          have hs0 : (cleanupExpiredSessions now rest
              (expireSession cs s).1).connState a = (expireSession cs s).1 a :=
            cleanup_state_notMem now rest _ a ha_rest
          exact ⟨by rw [List.count_append, hc1, hc0], by rw [hs0, hs1]⟩
      · have hsClientRest : s.client ∈ peersList rest :=
          client_mem_peersList rest code s hmemr
        by_cases he : ps.expiresAt < now
        · simp only [cleanupExpiredSessions, if_pos he]
          have hclient_nothead : s.client ∉ peersOf ps := fun hm =>
            hdisj hm hsClientRest
          have IH := ih (expireSession cs ps).1 hnd2 code s hmemr hexp
          constructor
          · intro hopen
            have hopen' : (expireSession cs ps).1 s.client = WS_OPEN := by
              rw [expireSession_state_notMem cs ps s.client hclient_nothead]
              exact hopen
            obtain ⟨hc1, hs1⟩ := IH.1 hopen'
            have hc0 : (expireSession cs ps).2.count (s.client, expiredMsg) = 0 :=
              expireSession_count_notMem cs ps s.client expiredMsg hclient_nothead
            exact ⟨by rw [List.count_append, hc0, hc1], hs1⟩
          · intro a ha hopen
            have haRest : a ∈ peersList rest :=
              agent_mem_peersList rest code s a hmemr ha
            have ha_nothead : a ∉ peersOf ps := fun hm => hdisj hm haRest
            have hopen' : (expireSession cs ps).1 a = WS_OPEN := by
              rw [expireSession_state_notMem cs ps a ha_nothead]
              exact hopen
            obtain ⟨hc1, hs1⟩ := IH.2 a ha hopen'
            have hc0 : (expireSession cs ps).2.count (a, expiredMsg) = 0 :=
              expireSession_count_notMem cs ps a expiredMsg ha_nothead
            exact ⟨by rw [List.count_append, hc0, hc1], hs1⟩
        · simp only [cleanupExpiredSessions, if_neg he]
          exact ih cs hnd2 code s hmemr hexp

/-- C7: one invocation of the sweep deletes exactly the sessions with
`expiresAt < now` (the surviving map is the filter of the old one), and for
each deleted session each peer whose connection was open receives
`session-ended{reason:"expired"}` exactly once and its connection is closed
(readyState moves to `CLOSING`); the hypothesis asks that distinct session
records reference pairwise distinct connections. -/
theorem cleanup_removes_expired_exactly (now : Int)
    (ss : List (String × Session)) (cs : ConnId → Nat)
    (hnd : (peersList ss).Nodup) :
    (cleanupExpiredSessions now ss cs).sessions
        = ss.filter (fun p => !decide (p.2.expiresAt < now))
    ∧ ∀ (code : String) (s : Session), (code, s) ∈ ss → s.expiresAt < now →
        (cs s.client = WS_OPEN →
          (cleanupExpiredSessions now ss cs).sends.count (s.client, expiredMsg) = 1
          ∧ (cleanupExpiredSessions now ss cs).connState s.client = WS_CLOSING)
        ∧ (∀ a, s.agent = some a → cs a = WS_OPEN →
          (cleanupExpiredSessions now ss cs).sends.count (a, expiredMsg) = 1
          ∧ (cleanupExpiredSessions now ss cs).connState a = WS_CLOSING) :=
  ⟨cleanup_sessions_filter now ss cs,
   fun code s hmem hexp => cleanup_notify now ss cs hnd code s hmem hexp⟩

/-- Witness for C7: a single expired session (presenter `1`, agent `2`, both
open) swept at time 1. -/
theorem cleanup_removes_expired_exactly_witness :
    (peersList [("AAAAAA", expiredSession)]).Nodup
    ∧ ((cleanupExpiredSessions 1 [("AAAAAA", expiredSession)] allOpen).sessions
          = [("AAAAAA", expiredSession)].filter
              (fun p => !decide (p.2.expiresAt < 1))
       ∧ ∀ (code : String) (s : Session),
           (code, s) ∈ [("AAAAAA", expiredSession)] → s.expiresAt < 1 →
           (allOpen s.client = WS_OPEN →
             (cleanupExpiredSessions 1 [("AAAAAA", expiredSession)]
                 allOpen).sends.count (s.client, expiredMsg) = 1
             ∧ (cleanupExpiredSessions 1 [("AAAAAA", expiredSession)]
                 allOpen).connState s.client = WS_CLOSING)
           ∧ (∀ a, s.agent = some a → allOpen a = WS_OPEN →
             (cleanupExpiredSessions 1 [("AAAAAA", expiredSession)]
                 allOpen).sends.count (a, expiredMsg) = 1
             ∧ (cleanupExpiredSessions 1 [("AAAAAA", expiredSession)]
                 allOpen).connState a = WS_CLOSING)) :=
  ⟨by decide,
   cleanup_removes_expired_exactly 1 [("AAAAAA", expiredSession)] allOpen
     (by decide)⟩

end Server
